import Mathlib

/-!
Verification development for the AIBetterTTrade trading engine.

Shallow embedding of the core logic of the repository:
  * `lib/custom_helpers.py` — signal normalization and fusion, position
    sizing, position-side normalization;
  * `lib/market_data.py`    — indicator pipeline (RSI, SMA, ATR, percent
    change, volatility) and the deterministic signal scorer;
  * `runner.py`             — the decision state machine and the
    emergency-close failsafe.

Python floats are embedded as exact rationals (`ℚ`); pandas `NaN`
placeholders are embedded as `Option ℚ` with `none` standing for an
undefined entry.  Python strings are handled through their character
lists so that every operation is kernel-computable.
-/

namespace AIBetterTTrade

/-- The three-valued signal domain `{Bullish, Bearish, Neutral}` of
`custom_helpers._normalize_signal` and `combine_signals`. -/
inductive Sig where
  | Bullish
  | Bearish
  | Neutral
deriving DecidableEq, Repr

/-- Render a `Sig` back to the literal string used in the Python source. -/
def Sig.toStr : Sig → String
  | .Bullish => "Bullish"
  | .Bearish => "Bearish"
  | .Neutral => "Neutral"

/-! ### Python string primitives (over character lists) -/

/-- Python `str.strip()` restricted to the usual ASCII whitespace:
drop whitespace from both ends of the character list. -/
def pyStrip (cs : List Char) : List Char :=
  ((cs.dropWhile Char.isWhitespace).reverse.dropWhile Char.isWhitespace).reverse

/-- Python `str.capitalize()`: first character upper-cased, the rest
lower-cased (ASCII case mapping, which covers the signal vocabulary). -/
def pyCapitalize (cs : List Char) : List Char :=
  match cs with
  | [] => []
  | c :: rest => c.toUpper :: rest.map Char.toLower

/-- Python `str.upper()` (ASCII case mapping). -/
def pyUpper (cs : List Char) : List Char :=
  cs.map Char.toUpper

/-- Python `str.rstrip("%")`: drop every trailing `%`. -/
def pyRstripPct (cs : List Char) : List Char :=
  (cs.reverse.dropWhile (· = '%')).reverse

/-! ### `custom_helpers._normalize_signal` -/

/-- Embedding of `custom_helpers._normalize_signal`.  A `none` or empty
(falsy) input yields `Neutral`; otherwise the input is stripped and
capitalized, and anything outside `{Bullish, Bearish, Neutral}` defaults
to `Neutral`. -/
def normalizeSignal (signal : Option String) : Sig :=
  match signal with
  | none => .Neutral
  | some s =>
    if s.data = [] then .Neutral
    else
      let cleaned := pyCapitalize (pyStrip s.data)
      if cleaned = "Bullish".data then .Bullish
      else if cleaned = "Bearish".data then .Bearish
      else if cleaned = "Neutral".data then .Neutral
      else .Neutral

/-! ### `custom_helpers.combine_signals` -/

/-- Embedding of `custom_helpers.combine_signals`.  The AI signal is the
primary driver; the technical guardrail can break a neutral tie
(confidence ≥ 0.55) or flatten an active disagreement (confidence ≥
0.75).  The guardrail signal is normalized only when it is truthy
(non-`none`, non-empty), exactly as in the source. -/
def combine_signals (ai_signal : String) (technical_signal : Option String)
    (technical_confidence : Option ℚ) : Sig :=
  let normalized_ai := normalizeSignal (some ai_signal)
  let normalized_tech : Option Sig :=
    match technical_signal with
    | none => none
    | some t => if t.data = [] then none else some (normalizeSignal (some t))
  match normalized_tech, technical_confidence with
  | none, _ => normalized_ai
  | some _, none => normalized_ai
  | some tech, some confidence =>
    if normalized_ai = tech then normalized_ai
    else if normalized_ai = .Neutral ∧ 0.55 ≤ confidence then tech
    else if tech = .Neutral then normalized_ai
    else if 0.75 ≤ confidence then .Neutral
    else normalized_ai

/-! ### `custom_helpers.normalize_position_side` -/

/-- The side-label table of `normalize_position_side`, in the source's
insertion order: each pair maps a recognized label stem to the internal
side string. -/
def sideMapping : List (List Char × String) :=
  [ ("BUY".data, "buy"), ("BID".data, "buy"), ("LONG".data, "buy"),
    ("SELL".data, "sell"), ("ASK".data, "sell"), ("SHORT".data, "sell") ]

/-- First match over the side-label table: return the mapped side for the
first key that the upper-cased label starts with. -/
def lookupSide (side : List Char) : List (List Char × String) → Option String
  | [] => none
  | (key, value) :: rest =>
    if key.isPrefixOf side then some value else lookupSide side rest

/-- Embedding of `custom_helpers.normalize_position_side`: a falsy input
(`none` or the empty string) yields `none`; otherwise the label is
stripped and upper-cased and matched against the mapping table; an
unrecognized label yields `none`. -/
def normalize_position_side (raw_side : Option String) : Option String :=
  match raw_side with
  | none => none
  | some r =>
    if r.data = [] then none
    else lookupSide (pyUpper (pyStrip r.data)) sideMapping

/-! ### Decision engine (`runner.py`, the `match (interpretation, current_position)` block)
and the emergency-close failsafe -/

/-- An open exchange position as seen by `runner.py`: the raw `side`
label reported by the exchange and the position identifier used by
`flash_close_position`. -/
structure Position where
  side : String
  positionId : ℕ
deriving DecidableEq, Repr

/-- The order-issuing exchange calls the decision block can make:
`flash_close_position(position_id)` and
`custom_helpers.open_position(..., direction=...)`. -/
inductive ExchangeCall where
  | flashClose (positionId : ℕ)
  | openOrder (direction : String)
deriving DecidableEq, Repr

/-- Whether an exchange call is a flash-close. -/
def ExchangeCall.isFlashClose : ExchangeCall → Bool
  | .flashClose _ => true
  | .openOrder _ => false

/-- Number of flash-close calls in a call trace. -/
def flashCloseCount (calls : List ExchangeCall) : ℕ :=
  (calls.filter ExchangeCall.isFlashClose).length

/-- Embedding of the `match (interpretation, current_position)` decision
block of `runner.py`: `current_position` is the normalized side of the
queried position (or `none`), and each case emits its order calls in
program order.  A pair matched by no case (impossible for normalized
sides) emits nothing, as a fully unmatched Python `match` does. -/
def tradeCalls (interpretation : Sig) (position : Option Position) : List ExchangeCall :=
  let current_position : Option String :=
    match position with
    | some p => normalize_position_side (some p.side)
    | none => none
  match interpretation, current_position, position with
  | .Bullish, none, _ => [.openOrder "buy"]
  | .Bullish, some s, some p =>
    if s = "sell" then [.flashClose p.positionId, .openOrder "buy"]
    else if s = "buy" then []
    else []
  | .Bearish, none, _ => [.openOrder "sell"]
  | .Bearish, some s, some p =>
    if s = "buy" then [.flashClose p.positionId, .openOrder "sell"]
    else if s = "sell" then []
    else []
  | .Neutral, some s, some p =>
    if s = "buy" ∨ s = "sell" then [.flashClose p.positionId] else []
  | .Neutral, none, _ => []
  | _, some _, none => []

/-- Embedding of the emergency handler of `runner.py` (the top-level
`except` block): re-query the current position; if one exists, issue a
single flash-close call, otherwise issue nothing. -/
def emergencyClose (requeried : Option Position) : List ExchangeCall :=
  match requeried with
  | some p => [.flashClose p.positionId]
  | none => []

/-- A cycle that raised inside the trading block: the calls already
issued before the exception, followed by the emergency handler's calls;
the cycle ends after the handler. -/
def cycleCallsOnError (issuedBeforeError : List ExchangeCall)
    (requeried : Option Position) : List ExchangeCall :=
  issuedBeforeError ++ emergencyClose requeried

/-! ### `custom_helpers.calculate_position_size` -/

/-- The run-time type of the Python `position_size` argument: a string,
a number (`int`/`float`, embedded as an exact rational), or any other
type. -/
inductive PySizeSpec where
  | str (v : String)
  | num (x : ℚ)
  | other
deriving DecidableEq, Repr

/-- Outcome of `calculate_position_size`: a quantity, a raised
`ValueError` (the spec's ValidationError class), or a raised
`TypeError`. -/
inductive SizeResult where
  | ok (qty : ℚ)
  | valueError
  | typeError
deriving DecidableEq, Repr

/-- Parse a list of decimal digits to a natural number (`none` when
empty or a non-digit occurs). -/
def parseDigits : List Char → Option ℕ
  | [] => none
  | cs =>
    if cs.all Char.isDigit then
      some (cs.foldl (fun acc c => acc * 10 + (c.toNat - '0'.toNat)) 0)
    else none

/-- Python `float(s)` on plain decimal literals: optional surrounding
whitespace, optional sign, then digits with an optional fractional part
(at least one digit overall).  `none` models a raised `ValueError`.
This covers the decimal-literal domain in which the sizing and interval
strings of this repository live. -/
def parseDecimal (cs : List Char) : Option ℚ :=
  let t := pyStrip cs
  let (sign, body) : ℚ × List Char :=
    match t with
    | '-' :: rest => (-1, rest)
    | '+' :: rest => (1, rest)
    | _ => (1, t)
  let intPart := body.takeWhile Char.isDigit
  let afterInt := body.dropWhile Char.isDigit
  match afterInt with
  | [] =>
    match parseDigits intPart with
    | some n => some (sign * n)
    | none => none
  | '.' :: fracPart =>
    if fracPart.all Char.isDigit ∧ (intPart ≠ [] ∨ fracPart ≠ []) then
      let ip : ℚ := ((parseDigits intPart).getD 0 : ℕ)
      let fp : ℚ := ((parseDigits fracPart).getD 0 : ℕ)
      some (sign * (ip + fp / (10 : ℚ) ^ fracPart.length))
    else none
  | _ => none

/-- Embedding of `custom_helpers.calculate_position_size`, with the
externally queried account balance and instrument price passed in as
`capital` and `current_price`.  A percentage string uses
`capital × pct/100` after checking `0 < pct ≤ 100`; a number is a fixed
amount checked to be positive and within capital; any other type is a
`TypeError`.  Every `ValueError` raised while parsing or validating the
percentage is re-raised as a `ValueError` in the source, so both map to
`SizeResult.valueError`. -/
def calculate_position_size (capital current_price : ℚ) :
    PySizeSpec → SizeResult
  | .str v =>
    if v.data.getLast? = some '%' then
      match parseDecimal (pyRstripPct v.data) with
      | none => .valueError
      | some percentage =>
        if 0 < percentage ∧ percentage ≤ 100 then
          .ok (capital * (percentage / 100) / current_price)
        else .valueError
    else .valueError
  | .num x =>
    if x ≤ 0 then .valueError
    else if capital < x then .valueError
    else .ok (x / current_price)
  | .other => .typeError

/-! ### `market_data` — data model -/

/-- Embedding of the frozen dataclass `market_data.MarketSnapshot`. -/
structure MarketSnapshot where
  symbol : String
  interval : String
  latest_close : ℚ
  change_24h : ℚ
  change_4h : ℚ
  momentum_1h : ℚ
  rsi : ℚ
  sma_fast : ℚ
  sma_slow : ℚ
  atr_pct : ℚ
  volume_24h : ℚ
  volatility_24h : ℚ
deriving DecidableEq, Repr

/-! ### `market_data` — pandas-style series primitives

A pandas numeric series is embedded as `List (Option ℚ)`: `none` stands
for a `NaN` entry.  Rolling aggregations follow pandas defaults
(`min_periods = window`, so a window that is incomplete or contains a
`NaN` yields `NaN`). -/

/-- `_safe_value(value, fallback)`: replace an undefined (`None`/`NaN`)
value by the fallback. -/
def safeValue (value : Option ℚ) (fallback : ℚ) : ℚ :=
  value.getD fallback

/-- `series.iloc[-1]` of an `Option`-valued series, as an `Option`
(`none` when the last entry is `NaN`; the source raises on an empty
series, which the theorems exclude by hypothesis). -/
def lastValO (xs : List (Option ℚ)) : Option ℚ :=
  xs.getLast?.bind id

/-- `series.iloc[-1]` of a plain numeric series (`0` placeholder for the
empty series, on which the source raises). -/
def lastD (xs : List ℚ) : ℚ :=
  xs.getLastD 0

/-- The (up to) `w` entries ending at index `i`: the rolling window used
at position `i`. -/
def windowO (w i : ℕ) (xs : List (Option ℚ)) : List (Option ℚ) :=
  (xs.drop (i + 1 - w)).take w

/-- `series.rolling(window=w).mean()` on an `Option`-valued series:
entry `i` is the mean of the window ending at `i`, and is `NaN` while
fewer than `w` entries exist or any entry of the window is `NaN`. -/
def rollingMeanO (w : ℕ) (xs : List (Option ℚ)) : List (Option ℚ) :=
  (List.range xs.length).map fun i =>
    if w ≤ i + 1 ∧ (windowO w i xs).all Option.isSome then
      some (((windowO w i xs).reduceOption).sum / w)
    else none

/-- `series.diff()`: first entry `NaN`, entry `i` is `x[i] − x[i−1]`. -/
def diffO (xs : List ℚ) : List (Option ℚ) :=
  (List.range xs.length).map fun i =>
    if i = 0 then none else some (xs.getD i 0 - xs.getD (i - 1) 0)

/-- `series.pct_change()`: first entry `NaN`, entry `i` is
`(x[i] − x[i−1]) / x[i−1]`.  A zero base (where pandas produces an
infinite entry, which poisons any rolling std just as `NaN` does) is
embedded as `none`. -/
def pctChangeO (xs : List ℚ) : List (Option ℚ) :=
  (List.range xs.length).map fun i =>
    if i = 0 then none
    else if xs.getD (i - 1) 0 = 0 then none
    else some ((xs.getD i 0 - xs.getD (i - 1) 0) / xs.getD (i - 1) 0)

/-- `series.rolling(window=w).std()` definedness and magnitude carrier:
the defined entry holds the sample variance (`ddof = 1`) of the window.
The source reports its square root, which is irrational in general; the
claims only depend on where the result is defined and on the `0`
fallback, never on the defined value, and taking the square root does
not change definedness (a one-point window, `w ≤ 1`, is `NaN` under
`ddof = 1`). -/
def rollingStdO (w : ℕ) (xs : List (Option ℚ)) : List (Option ℚ) :=
  (List.range xs.length).map fun i =>
    if 2 ≤ w ∧ w ≤ i + 1 ∧ (windowO w i xs).all Option.isSome then
      let vals := (windowO w i xs).reduceOption
      let m := vals.sum / w
      some ((vals.map fun x => (x - m) ^ 2).sum / (w - 1))
    else none

/-! ### `market_data` — indicators -/

/-- Embedding of `market_data._calculate_rsi` at `period = 14`:
gains/losses from `diff`, 14-bar rolling means, `RS = avg_gain /
avg_loss` with a zero average loss replaced by `NA`, `RSI = 100 −
100/(1+RS)`, last value with fallback `50`. -/
def calcRsi (closes : List ℚ) : ℚ :=
  let delta := diffO closes
  let gain := delta.map (Option.map fun d => max d 0)
  let loss := delta.map (Option.map fun d => max (-d) 0)
  let avgGain := rollingMeanO 14 gain
  let avgLoss := rollingMeanO 14 loss
  let rs := (List.range closes.length).map fun i =>
    match avgGain.getD i none, avgLoss.getD i none with
    | some g, some l => if l = 0 then none else some (g / l)
    | _, _ => none
  let rsi := rs.map (Option.map fun r => 100 - 100 / (1 + r))
  safeValue (lastValO rsi) 50

/-- Embedding of `market_data._calculate_atr` at `period = 14`: true
range per bar (`high − low`, `|high − prev_close|`, `|low −
prev_close|`, row-wise max skipping the missing `prev_close` of the
first bar, as pandas `max(axis=1)` does), 14-bar rolling mean, last
value with fallback `0`. -/
def calcAtr (highs lows closes : List ℚ) : ℚ :=
  let tr : List ℚ := (List.range highs.length).map fun i =>
    if i = 0 then highs.getD i 0 - lows.getD i 0
    else
      let pc := closes.getD (i - 1) 0
      max (highs.getD i 0 - lows.getD i 0)
        (max |highs.getD i 0 - pc| |lows.getD i 0 - pc|)
  let atr := rollingMeanO 14 (tr.map some)
  safeValue (lastValO atr) 0

/-- The SMA expression of `build_snapshot`:
`closes.rolling(window=w).mean().iloc[-1]` with the latest close as
fallback. -/
def smaLast (w : ℕ) (closes : List ℚ) : ℚ :=
  safeValue (lastValO (rollingMeanO w (closes.map some))) (lastD closes)

/-- The ATR-percentage expression of `build_snapshot`:
`atr_value / closes.iloc[-1] * 100`, or `0` when the latest close is
falsy (zero). -/
def atrPctOf (highs lows closes : List ℚ) : ℚ :=
  let atrValue := calcAtr highs lows closes
  if lastD closes = 0 then 0 else atrValue / lastD closes * 100

/-- The 24h-volatility expression of `build_snapshot`:
`closes.pct_change().rolling(window=w).std().iloc[-1]` with fallback
`0` (see `rollingStdO` for the defined-value carrier). -/
def volatility24hOf (w : ℕ) (closes : List ℚ) : ℚ :=
  safeValue (lastValO (rollingStdO w (pctChangeO closes))) 0

/-- Embedding of `market_data._period_pct_change`: `0` when the series
has at most `bars` points or `bars` is not positive, `0` when the base
value `bars` bars ago is zero, else the relative change. -/
def period_pct_change (series : List ℚ) (bars : ℤ) : ℚ :=
  if (series.length : ℤ) ≤ bars ∨ bars ≤ 0 then 0
  else
    let latest := lastD series
    let base := series.getD (series.length - 1 - bars.toNat) 0
    if base = 0 then 0 else (latest - base) / base

/-! ### `market_data` — interval parsing and bar counts -/

/-- Python `int(s)` on a decimal string: optional surrounding
whitespace, optional sign, digits; `none` models a raised
`ValueError`. -/
def parseInt (cs : List Char) : Option ℤ :=
  let t := pyStrip cs
  match t with
  | '-' :: rest => (parseDigits rest).map fun n => -(n : ℤ)
  | '+' :: rest => (parseDigits rest).map fun n => (n : ℤ)
  | _ => (parseDigits t).map fun n => (n : ℤ)

/-- Embedding of `market_data._interval_to_minutes`: last character is
the unit, the prefix is parsed as an integer, multiplier table
`{m ↦ 1, h ↦ 60, d ↦ 1440}`; `none` models the raised errors (empty
string, unparsable value, unsupported unit). -/
def interval_to_minutes (interval : String) : Option ℤ :=
  match interval.data.getLast? with
  | none => none
  | some unit =>
    match parseInt interval.data.dropLast with
    | none => none
    | some value =>
      if unit = 'm' then some (value * 1)
      else if unit = 'h' then some (value * 60)
      else if unit = 'd' then some (value * (60 * 24))
      else none

/-- Python `int()` applied to a rational: truncation toward zero. -/
def pyInt (q : ℚ) : ℤ :=
  if 0 ≤ q then ⌊q⌋ else ⌈q⌉

/-- Python `round()` applied to a rational: nearest integer, ties to
even. -/
def pyRound (q : ℚ) : ℤ :=
  let f := ⌊q⌋
  let r := q - f
  if r < 1 / 2 then f
  else if 1 / 2 < r then f + 1
  else if Even f then f else f + 1

/-- The 24h bar count of `build_snapshot`:
`int((24 * 60) / _interval_to_minutes(interval))`; `none` models a
raised error (bad interval or division by zero minutes). -/
def bars24Of (interval : String) : Option ℤ :=
  (interval_to_minutes interval).bind fun m =>
    if m = 0 then none else some (pyInt ((24 * 60 : ℚ) / (m : ℚ)))

/-- The 4h bar count of `build_snapshot`:
`int((4 * 60) / _interval_to_minutes(interval))`. -/
def bars4Of (interval : String) : Option ℤ :=
  (interval_to_minutes interval).bind fun m =>
    if m = 0 then none else some (pyInt ((4 * 60 : ℚ) / (m : ℚ)))

/-- The 1h bar count of `build_snapshot`:
`max(1, int(60 / _interval_to_minutes(interval)))`. -/
def bars1hOf (interval : String) : Option ℤ :=
  (interval_to_minutes interval).bind fun m =>
    if m = 0 then none else some (max 1 (pyInt ((60 : ℚ) / (m : ℚ))))

/-! ### `market_data.derive_signal` — the deterministic scorer

The source appends formatted f-strings to `rationale_parts` and joins
them with `"; "`.  Each part is embedded structurally (constructor per
f-string, carrying the interpolated values), since the claims about the
rationale concern which parts appear and in which order, and fixed-point
float formatting has no exact rational counterpart. -/

/-- One entry of `rationale_parts` in `derive_signal`, one constructor
per f-string of the source. -/
inductive RationalePart where
  /-- `f"Price {above/below} long SMA ({latest_close:.0f} vs {sma_slow:.0f})"` -/
  | priceVsLongSMA (above : Bool) (latest_close sma_slow : ℚ)
  /-- `"SMA20>SMA60"` or `"SMA20<SMA60"` -/
  | smaCross (up : Bool)
  /-- `f"RSI strong ({rsi:.1f})"` -/
  | rsiStrong (rsi : ℚ)
  /-- `f"RSI weak ({rsi:.1f})"` -/
  | rsiWeak (rsi : ℚ)
  /-- `f"1h momentum +{m*100:.2f}%"` (positive) or
      `f"1h momentum {m*100:.2f}%"` (negative) -/
  | momentum (positive : Bool) (momentum_1h : ℚ)
deriving DecidableEq, Repr

/-- Embedding of `market_data.TechnicalSignal` (rationale kept as its
ordered part list, see `RationalePart`). -/
structure TechnicalSignal where
  signal : Sig
  confidence : ℚ
  rationaleParts : List RationalePart
deriving DecidableEq, Repr

/-- The score/rationale accumulation loop of `derive_signal`, in source
order: long-trend bias, MA-cross bias, RSI bias, 1h-momentum bias,
24h-change bias (the last adds to the score without appending a
rationale part, exactly as in the source). -/
def scoreParts (s : MarketSnapshot) : ℚ × List RationalePart :=
  let trend_bias : ℚ := if s.sma_slow < s.latest_close then 0.25 else -0.25
  let score : ℚ := 0 + trend_bias
  let parts : List RationalePart :=
    [.priceVsLongSMA (0 < trend_bias) s.latest_close s.sma_slow]
  let ma_cross_bias : ℚ := if s.sma_slow < s.sma_fast then 0.2 else -0.2
  let score := score + ma_cross_bias
  let parts := parts ++ [.smaCross (0 < ma_cross_bias)]
  let afterRsi : ℚ × List RationalePart :=
    if 55 ≤ s.rsi then
      (score + min 0.2 ((s.rsi - 55) / 100), parts ++ [.rsiStrong s.rsi])
    else if s.rsi ≤ 45 then
      (score - min 0.2 ((45 - s.rsi) / 100), parts ++ [.rsiWeak s.rsi])
    else (score, parts)
  let afterMomentum : ℚ × List RationalePart :=
    if 0.002 ≤ s.momentum_1h then
      (afterRsi.1 + 0.15, afterRsi.2 ++ [.momentum true s.momentum_1h])
    else if s.momentum_1h ≤ -0.002 then
      (afterRsi.1 - 0.15, afterRsi.2 ++ [.momentum false s.momentum_1h])
    else afterRsi
  let finalScore : ℚ :=
    if 0.005 ≤ s.change_24h then afterMomentum.1 + 0.1
    else if s.change_24h ≤ -0.005 then afterMomentum.1 - 0.1
    else afterMomentum.1
  (finalScore, afterMomentum.2)

/-- The final score of `derive_signal`. -/
def signalScore (s : MarketSnapshot) : ℚ :=
  (scoreParts s).1

/-- Embedding of `market_data.derive_signal`: threshold the score at
`±0.15`, confidence `max(0.45, min(0.95, 0.55 + |score|))`. -/
def derive_signal (s : MarketSnapshot) : TechnicalSignal :=
  let score := signalScore s
  let signal : Sig :=
    if 0.15 < score then .Bullish
    else if score < -0.15 then .Bearish
    else .Neutral
  { signal := signal
    confidence := max 0.45 (min 0.95 (0.55 + |score|))
    rationaleParts := (scoreParts s).2 }

/-! Per-term score contributions of `derive_signal`, named for use in
theorem statements (each mirrors one branch group of the source). -/

/-- Long-trend bias: `±0.25` by latest close vs SMA(60). -/
def trendBias (s : MarketSnapshot) : ℚ :=
  if s.sma_slow < s.latest_close then 0.25 else -0.25

/-- Moving-average cross bias: `±0.2` by SMA(20) vs SMA(60). -/
def maCrossBias (s : MarketSnapshot) : ℚ :=
  if s.sma_slow < s.sma_fast then 0.2 else -0.2

/-- RSI bias: clipped distance from the 55/45 bands, `0` in between. -/
def rsiBias (s : MarketSnapshot) : ℚ :=
  if 55 ≤ s.rsi then min 0.2 ((s.rsi - 55) / 100)
  else if s.rsi ≤ 45 then -min 0.2 ((45 - s.rsi) / 100)
  else 0

/-- 1h momentum bias: `±0.15` past the `0.002` band, `0` in between. -/
def momentumBias (s : MarketSnapshot) : ℚ :=
  if 0.002 ≤ s.momentum_1h then 0.15
  else if s.momentum_1h ≤ -0.002 then -0.15
  else 0

/-- 24h change bias: `±0.1` past the `0.005` band, `0` in between. -/
def change24hBias (s : MarketSnapshot) : ℚ :=
  if 0.005 ≤ s.change_24h then 0.1
  else if s.change_24h ≤ -0.005 then -0.1
  else 0

/-- Number of scoring terms of `derive_signal` that make a nonzero
contribution to the score (the long-trend and MA-cross biases always
contribute `±0.25` and `±0.20`; the RSI, momentum and 24h-change terms
contribute on their branch conditions, the RSI term nontrivially only
when its clipped bias is nonzero). -/
def contributingTermCount (s : MarketSnapshot) : ℕ :=
  2
  + (if (55 ≤ s.rsi ∧ min 0.2 ((s.rsi - 55) / 100) ≠ 0)
       ∨ (s.rsi ≤ 45 ∧ min 0.2 ((45 - s.rsi) / 100) ≠ 0) then 1 else 0)
  + (if 0.002 ≤ s.momentum_1h ∨ s.momentum_1h ≤ -0.002 then 1 else 0)
  + (if 0.005 ≤ s.change_24h ∨ s.change_24h ≤ -0.005 then 1 else 0)

/-! ### Helper lemmas on the series primitives -/

theorem rangeMap_getLast? {α : Type} (f : ℕ → α) {n : ℕ} (hn : 0 < n) :
    ((List.range n).map f).getLast? = some (f (n - 1)) := by
  rw [List.getLast?_eq_getElem?]
  simp only [List.length_map, List.length_range]
  rw [List.getElem?_map, List.getElem?_range (by omega)]
  rfl

theorem rangeMap_getD {α : Type} (f : ℕ → α) {n i : ℕ} (d : α) (h : i < n) :
    ((List.range n).map f).getD i d = f i := by
  rw [List.getD_eq_getElem?_getD, List.getElem?_map, List.getElem?_range h]
  rfl

theorem all_isSome_false_of_head {xs : List (Option ℚ)} {w : ℕ} (hw : 0 < w)
    (hhead : xs[0]? = some none) : (xs.take w).all Option.isSome = false := by
  rw [List.all_eq_false]
  refine ⟨none, ?_, by simp⟩
  have h0 : (xs.take w)[0]? = some none := by
    rw [List.getElem?_take, if_pos hw]; exact hhead
  obtain ⟨hlt, heq⟩ := List.getElem?_eq_some.mp h0
  exact heq ▸ List.getElem_mem hlt

/-- The last entry of a `w`-bar rolling mean is undefined whenever the
series has at most `w` entries and its first entry is `NaN` (the
incomplete-window rule covers fewer than `w` entries; at exactly `w`
the window reaches back to the `NaN` head). -/
theorem rollingMeanO_getD_last_none {w : ℕ} {xs : List (Option ℚ)}
    (h0 : 0 < xs.length) (hle : xs.length ≤ w) (hhead : xs[0]? = some none) :
    (rollingMeanO w xs).getD (xs.length - 1) none = none := by
  unfold rollingMeanO
  rw [rangeMap_getD _ _ (by omega)]
  rcases lt_or_eq_of_le hle with hlt | heq
  · rw [if_neg]
    rintro ⟨hw, -⟩
    omega
  · rw [if_neg]
    rintro ⟨-, hall⟩
    unfold windowO at hall
    rw [show xs.length - 1 + 1 - w = 0 by omega, List.drop_zero] at hall
    rw [all_isSome_false_of_head (by omega) hhead] at hall
    exact Bool.false_ne_true hall

/-- The last entry of a `w`-bar rolling mean is undefined when the
series has fewer than `w` entries. -/
theorem rollingMeanO_last_none_short {w : ℕ} {xs : List (Option ℚ)}
    (h0 : 0 < xs.length) (hlt : xs.length < w) :
    lastValO (rollingMeanO w xs) = none := by
  unfold lastValO rollingMeanO
  rw [rangeMap_getLast? _ h0]
  rw [if_neg]
  · rfl
  · rintro ⟨hw, -⟩
    omega

/-- The last entry of a `w`-bar rolling sample standard deviation is
undefined whenever the series has at most `w` entries and its first
entry is `NaN` (also covering `w ≤ 1`, where `ddof = 1` makes every
entry `NaN`). -/
theorem rollingStdO_last_none {w : ℕ} {xs : List (Option ℚ)}
    (h0 : 0 < xs.length) (hle : xs.length ≤ w) (hhead : xs[0]? = some none) :
    lastValO (rollingStdO w xs) = none := by
  unfold lastValO rollingStdO
  rw [rangeMap_getLast? _ h0]
  rcases lt_or_eq_of_le hle with hlt | heq
  · rw [if_neg]
    · rfl
    · rintro ⟨-, hw, -⟩
      omega
  · rw [if_neg]
    · rfl
    · rintro ⟨h2, -, hall⟩
      unfold windowO at hall
      rw [show xs.length - 1 + 1 - w = 0 by omega, List.drop_zero] at hall
      rw [all_isSome_false_of_head (by omega) hhead] at hall
      exact Bool.false_ne_true hall

/-! ### Claim theorems -/

/-- C1 — Fail-safe: in a cycle whose trading block raised after the
position query, the calls of the whole cycle are the calls already
issued plus the emergency handler's calls, and the handler contributes
exactly one flash-close call when the re-queried position is non-`None`
and none when it is `None` (so the total flash-close count of the failed
cycle exceeds the pre-exception count by exactly one, resp. zero). -/
theorem emergency_failsafe_flash_close (issued : List ExchangeCall)
    (requeried : Option Position) :
    flashCloseCount (cycleCallsOnError issued requeried)
      = flashCloseCount issued + (if requeried.isSome then 1 else 0) ∧
    (cycleCallsOnError issued requeried).drop issued.length
      = emergencyClose requeried := by
  constructor
  · cases requeried <;>
      simp [cycleCallsOnError, emergencyClose, flashCloseCount,
        List.filter_append, ExchangeCall.isFlashClose]
  · simp [cycleCallsOnError]

/-- C2 — Decision state machine: for every (final signal, normalized
position side) pair, the trading block of `runner.py` issues exactly
the section-4.6 action: open long; close short then open long; hold;
open short; close long then open short; hold; flash-close on Neutral
with a position; nothing on Neutral without one. -/
theorem decision_table (p : ℕ) :
    tradeCalls .Bullish none = [.openOrder "buy"] ∧
    tradeCalls .Bullish (some ⟨"sell", p⟩) = [.flashClose p, .openOrder "buy"] ∧
    tradeCalls .Bullish (some ⟨"buy", p⟩) = [] ∧
    tradeCalls .Bearish none = [.openOrder "sell"] ∧
    tradeCalls .Bearish (some ⟨"buy", p⟩) = [.flashClose p, .openOrder "sell"] ∧
    tradeCalls .Bearish (some ⟨"sell", p⟩) = [] ∧
    tradeCalls .Neutral (some ⟨"buy", p⟩) = [.flashClose p] ∧
    tradeCalls .Neutral (some ⟨"sell", p⟩) = [.flashClose p] ∧
    tradeCalls .Neutral none = [] := by
  refine ⟨rfl, ?_, ?_, rfl, ?_, ?_, ?_, ?_, rfl⟩ <;> rfl

/-- C3 — Signal fusion precedence: the four pinned rule firings
(neutral tie-break, high-confidence conflict suppression, disagreement
below threshold, neutral guardrail), and, for an absent guardrail signal
or absent confidence, the normalized primary signal unchanged. -/
theorem fusion_precedence :
    combine_signals "Neutral" (some "Bullish") (some 0.60) = .Bullish ∧
    combine_signals "Bullish" (some "Bearish") (some 0.80) = .Neutral ∧
    combine_signals "Bullish" (some "Bearish") (some 0.60) = .Bullish ∧
    combine_signals "Bearish" (some "Neutral") (some 0.90) = .Bearish ∧
    (∀ (ai : String) (conf : Option ℚ),
      combine_signals ai none conf = normalizeSignal (some ai)) ∧
    (∀ (ai : String) (tech : Option String),
      combine_signals ai tech none = normalizeSignal (some ai)) := by
  have e1 : normalizeSignal (some "Neutral") = .Neutral := by decide
  have e2 : normalizeSignal (some "Bullish") = .Bullish := by decide
  have e3 : normalizeSignal (some "Bearish") = .Bearish := by decide
  refine ⟨?_, ?_, ?_, ?_, fun ai conf => rfl, fun ai tech => ?_⟩
  · simp only [combine_signals, e1, e2, List.cons_ne_nil, if_false, ite_false]
    norm_num
  · simp only [combine_signals, e2, e3, List.cons_ne_nil, if_false, ite_false]
    norm_num
    all_goals decide
  · simp only [combine_signals, e2, e3, List.cons_ne_nil, if_false, ite_false]
    norm_num
    all_goals decide
  · simp only [combine_signals, e1, e3, List.cons_ne_nil, if_false, ite_false]
    norm_num
    all_goals decide
  · cases tech with
    | none => rfl
    | some t =>
      by_cases h : t.data = [] <;> simp [combine_signals, h]

/-- C4 — Position sizing: the pinned examples (`"10%"`/1000/50 ↦ 2,
`150`/1000/50 ↦ 3, `1500` over capital 1000 raises, `"150%"` raises);
a numeric spec raises a `ValueError` exactly when non-positive or over
capital; a string spec not ending in `%` raises; a parseable percentage
spec raises exactly when its percentage lies outside `(0, 100]`; any
other spec type raises a `TypeError`. -/
theorem position_sizing_spec :
    (calculate_position_size 1000 50 (.str "10%") = .ok 2) ∧
    (calculate_position_size 1000 50 (.num 150) = .ok 3) ∧
    (∀ price : ℚ, calculate_position_size 1000 price (.num 1500) = .valueError) ∧
    (∀ capital price : ℚ,
      calculate_position_size capital price (.str "150%") = .valueError) ∧
    (∀ capital price x : ℚ,
      calculate_position_size capital price (.num x) = .valueError
        ↔ x ≤ 0 ∨ capital < x) ∧
    (∀ (capital price : ℚ) (v : String), ¬(v.data.getLast? = some '%') →
      calculate_position_size capital price (.str v) = .valueError) ∧
    (∀ (capital price pct : ℚ) (v : String), v.data.getLast? = some '%' →
      parseDecimal (pyRstripPct v.data) = some pct →
      (calculate_position_size capital price (.str v) = .valueError
        ↔ ¬(0 < pct ∧ pct ≤ 100))) ∧
    (∀ capital price : ℚ,
      calculate_position_size capital price .other = .typeError) := by
  refine ⟨?_, ?_, ?_, ?_, ?_, ?_, ?_, fun _ _ => rfl⟩
  · have hp : parseDecimal (pyRstripPct "10%".data) = some 10 := by
      show some ((1 : ℚ) * ((10 : ℕ) : ℚ)) = some 10
      norm_num
    simp only [calculate_position_size, hp]
    norm_num
  · simp only [calculate_position_size]
    norm_num
  · intro price
    simp only [calculate_position_size]
    norm_num
  · intro capital price
    have hp : parseDecimal (pyRstripPct "150%".data) = some 150 := by
      show some ((1 : ℚ) * ((150 : ℕ) : ℚ)) = some 150
      norm_num
    simp only [calculate_position_size, hp]
    norm_num
  · intro capital price x
    simp only [calculate_position_size]
    by_cases h1 : x ≤ 0
    · simp [h1]
    · by_cases h2 : capital < x <;> simp [h1, h2]
  · intro capital price v h
    simp only [calculate_position_size, if_neg h]
  · intro capital price pct v hend hp
    simp only [calculate_position_size, if_pos hend, hp]
    by_cases h : 0 < pct ∧ pct ≤ 100 <;> simp [h]

/-- C4 witness: the hypothesis-bearing parts of `position_sizing_spec`
discharged at concrete inputs — a non-percentage string raises, and the
out-of-range percentage characterization at `"200%"`. -/
theorem position_sizing_witness :
    calculate_position_size 1000 50 (.str "abc") = .valueError ∧
    (calculate_position_size 1000 50 (.str "200%") = .valueError
      ↔ ¬((0 : ℚ) < 200 ∧ (200 : ℚ) ≤ 100)) := by
  refine ⟨position_sizing_spec.2.2.2.2.2.1 1000 50 "abc" (by decide), ?_⟩
  refine position_sizing_spec.2.2.2.2.2.2.1 1000 50 200 "200%" (by decide) ?_
  show some ((1 : ℚ) * ((200 : ℕ) : ℚ)) = some 200
  norm_num

/-- C8 — Percent change guards: the result is exactly `0` whenever the
series has at most `bars` points or `bars` is not positive, and whenever
the base value `bars` bars ago is exactly zero.  Totality of the
embedding over `ℚ` reflects that the guarded source expression never
divides by zero, so it neither raises nor produces an infinite value. -/
theorem pct_change_guards (series : List ℚ) (bars : ℤ) :
    ((series.length : ℤ) ≤ bars ∨ bars ≤ 0 → period_pct_change series bars = 0) ∧
    (series.getD (series.length - 1 - bars.toNat) 0 = 0 →
      period_pct_change series bars = 0) := by
  constructor
  · intro h
    simp only [period_pct_change, if_pos h]
  · intro h
    by_cases hc : (series.length : ℤ) ≤ bars ∨ bars ≤ 0
    · simp only [period_pct_change, if_pos hc]
    · simp only [period_pct_change, if_neg hc, h, if_pos]

/-- C8 witness: the short-series guard at `[1, 2]` with 5 bars and the
zero-base guard at `[0, 3]` with 1 bar. -/
theorem pct_change_guards_witness :
    period_pct_change [1, 2] 5 = 0 ∧ period_pct_change [0, 3] 1 = 0 :=
  ⟨(pct_change_guards [1, 2] 5).1 (by norm_num),
   (pct_change_guards [0, 3] 1).2 (by norm_num)⟩

/-- C10 — Position-side normalization: a stripped upper-cased label
starting with BUY, BID or LONG maps to `"buy"`; one starting with SELL,
ASK or SHORT maps to `"sell"`; everything else (including `None` and the
empty string) maps to `None`, and the decision block then treats the
position exactly as if none were open. -/
theorem side_normalization :
    normalize_position_side none = none ∧
    (∀ r : String,
      (("BUY".data.isPrefixOf (pyUpper (pyStrip r.data))
          ∨ "BID".data.isPrefixOf (pyUpper (pyStrip r.data))
          ∨ "LONG".data.isPrefixOf (pyUpper (pyStrip r.data))) →
        normalize_position_side (some r) = some "buy") ∧
      (("SELL".data.isPrefixOf (pyUpper (pyStrip r.data))
          ∨ "ASK".data.isPrefixOf (pyUpper (pyStrip r.data))
          ∨ "SHORT".data.isPrefixOf (pyUpper (pyStrip r.data))) →
        normalize_position_side (some r) = some "sell") ∧
      (¬("BUY".data.isPrefixOf (pyUpper (pyStrip r.data))
          ∨ "BID".data.isPrefixOf (pyUpper (pyStrip r.data))
          ∨ "LONG".data.isPrefixOf (pyUpper (pyStrip r.data))
          ∨ "SELL".data.isPrefixOf (pyUpper (pyStrip r.data))
          ∨ "ASK".data.isPrefixOf (pyUpper (pyStrip r.data))
          ∨ "SHORT".data.isPrefixOf (pyUpper (pyStrip r.data))) →
        normalize_position_side (some r) = none ∧
        ∀ (sig : Sig) (p : ℕ),
          tradeCalls sig (some ⟨r, p⟩) = tradeCalls sig none)) := by
  refine ⟨rfl, fun r => ⟨?_, ?_, ?_⟩⟩
  · rintro (h | h | h) <;>
    · obtain ⟨t, ht⟩ := List.isPrefixOf_iff_prefix.mp h
      have hr : r.data ≠ [] := by
        intro hr0
        rw [hr0] at ht
        exact absurd ht (by simp [pyStrip, pyUpper])
      simp only [normalize_position_side]
      rw [if_neg hr, ← ht]
      simp [lookupSide, sideMapping, List.isPrefixOf]
  · rintro (h | h | h) <;>
    · obtain ⟨t, ht⟩ := List.isPrefixOf_iff_prefix.mp h
      have hr : r.data ≠ [] := by
        intro hr0
        rw [hr0] at ht
        exact absurd ht (by simp [pyStrip, pyUpper])
      simp only [normalize_position_side]
      rw [if_neg hr, ← ht]
      simp [lookupSide, sideMapping, List.isPrefixOf]
  · intro hnone
    push_neg at hnone
    simp only [ne_eq, Bool.not_eq_true] at hnone
    obtain ⟨h1, h2, h3, h4, h5, h6⟩ := hnone
    have hnorm : normalize_position_side (some r) = none := by
      simp only [normalize_position_side]
      by_cases hr : r.data = []
      · rw [if_pos hr]
      · rw [if_neg hr]
        simp [lookupSide, sideMapping, h1, h2, h3, h4, h5, h6]
    refine ⟨hnorm, fun sig p => ?_⟩
    cases sig <;> (unfold tradeCalls; simp only [hnorm])

/-- C10 witness: a LONG-stem label maps to buy; an unrecognized label
maps to `None` and yields the no-position decision. -/
theorem side_normalization_witness :
    normalize_position_side (some " long_hedge ") = some "buy" ∧
    normalize_position_side (some "FLAT") = none ∧
    tradeCalls .Bullish (some ⟨"FLAT", 7⟩) = tradeCalls .Bullish none := by
  refine ⟨(side_normalization.2 " long_hedge ").1 (by decide), ?_, ?_⟩
  · exact ((side_normalization.2 "FLAT").2.2 (by decide)).1
  · exact ((side_normalization.2 "FLAT").2.2 (by decide)).2 .Bullish 7

/-- C7 counterexample — at interval `"9h"` (540 minutes, a recognized
unit suffix) the 24h bar count used by `build_snapshot` is
`int(1440/540) = 2`, while `round(1440/540) = 3`: the bar count is a
truncation, not a rounding. -/
theorem bar_count_round_counterexample :
    interval_to_minutes "9h" = some 540 ∧
    bars24Of "9h" = some 2 ∧
    pyRound ((24 * 60 : ℚ) / 540) = 3 ∧
    bars24Of "9h" ≠ some (pyRound ((24 * 60 : ℚ) / 540)) := by
  have hm : interval_to_minutes "9h" = some 540 := by decide
  have hfl : ⌊(24 * 60 : ℚ) / 540⌋ = 2 := by
    rw [Int.floor_eq_iff]
    constructor <;> norm_num
  have h24 : bars24Of "9h" = some 2 := by
    simp only [bars24Of, hm, Option.some_bind]
    rw [if_neg (by norm_num : ¬(540 : ℤ) = 0)]
    simp only [pyInt]
    rw [if_pos (by norm_num : (0 : ℚ) ≤ (24 * 60 : ℚ) / ((540 : ℤ) : ℚ))]
    norm_num [hfl]
  have hround : pyRound ((24 * 60 : ℚ) / 540) = 3 := by
    simp only [pyRound, hfl]
    rw [if_neg (by norm_num), if_pos (by norm_num)]
    decide
  exact ⟨hm, h24, hround, by rw [h24, hround]; decide⟩

/-- C7 amended — for every interval string that
`_interval_to_minutes` resolves to a positive minute count `m`, the 24h
and 4h bar counts equal `⌊period_minutes / m⌋` (Python `int()`
truncation, which for these positive values is the floor, not a
rounding), and the 1h bar count is the same floor clamped below by 1. -/
theorem bar_counts_floor (interval : String) (m : ℤ)
    (hm : interval_to_minutes interval = some m) (hpos : 0 < m) :
    bars24Of interval = some ⌊(24 * 60 : ℚ) / (m : ℚ)⌋ ∧
    bars4Of interval = some ⌊(4 * 60 : ℚ) / (m : ℚ)⌋ ∧
    bars1hOf interval = some (max 1 ⌊(60 : ℚ) / (m : ℚ)⌋) := by
  have hm0 : ¬ m = 0 := by omega
  have hmq : (0 : ℚ) < (m : ℚ) := by exact_mod_cast hpos
  refine ⟨?_, ?_, ?_⟩
  · simp only [bars24Of, hm, Option.some_bind, if_neg hm0, pyInt]
    rw [if_pos (div_nonneg (by norm_num) hmq.le)]
  · simp only [bars4Of, hm, Option.some_bind, if_neg hm0, pyInt]
    rw [if_pos (div_nonneg (by norm_num) hmq.le)]
  · simp only [bars1hOf, hm, Option.some_bind, if_neg hm0, pyInt]
    rw [if_pos (div_nonneg (by norm_num) hmq.le)]

/-- C7 witness: the amended statement discharged at the configured
interval `"15m"`. -/
theorem bar_counts_floor_witness :
    bars24Of "15m" = some ⌊(24 * 60 : ℚ) / ((15 : ℤ) : ℚ)⌋ ∧
    bars4Of "15m" = some ⌊(4 * 60 : ℚ) / ((15 : ℤ) : ℚ)⌋ ∧
    bars1hOf "15m" = some (max 1 ⌊(60 : ℚ) / ((15 : ℤ) : ℚ)⌋) :=
  bar_counts_floor "15m" 15 (by decide) (by decide)

/-! ### Helper lemmas on the scorer -/

set_option maxHeartbeats 2000000 in
/-- The sequential score accumulation of `derive_signal` equals the sum
of the five per-term biases. -/
theorem scoreParts_fst (s : MarketSnapshot) :
    (scoreParts s).1
      = trendBias s + maCrossBias s + rsiBias s + momentumBias s
        + change24hBias s := by
  unfold scoreParts trendBias maCrossBias rsiBias momentumBias change24hBias
  split_ifs <;> ring

set_option maxHeartbeats 2000000 in
/-- The sequential rationale accumulation of `derive_signal` equals the
ordered concatenation of the per-term reason lists of the first four
terms. -/
theorem scoreParts_snd (s : MarketSnapshot) :
    (scoreParts s).2
      = [RationalePart.priceVsLongSMA (0 < trendBias s) s.latest_close s.sma_slow,
         RationalePart.smaCross (0 < maCrossBias s)]
        ++ (if 55 ≤ s.rsi then [RationalePart.rsiStrong s.rsi]
            else if s.rsi ≤ 45 then [RationalePart.rsiWeak s.rsi] else [])
        ++ (if 0.002 ≤ s.momentum_1h then
              [RationalePart.momentum true s.momentum_1h]
            else if s.momentum_1h ≤ -0.002 then
              [RationalePart.momentum false s.momentum_1h]
            else []) := by
  unfold scoreParts trendBias maCrossBias
  split_ifs <;> simp

/-- Each per-term bias of the scorer is bounded, so the total score is
bounded by `0.25 + 0.20 + 0.20 + 0.15 + 0.10 = 0.9` in absolute
value. -/
theorem abs_signalScore_le (s : MarketSnapshot) : |signalScore s| ≤ 0.9 := by
  have h1 : |trendBias s| ≤ 0.25 := by
    simp only [trendBias]; split_ifs <;> rw [abs_le] <;> constructor <;> norm_num
  have h2 : |maCrossBias s| ≤ 0.2 := by
    simp only [maCrossBias]; split_ifs <;> rw [abs_le] <;> constructor <;> norm_num
  have h3 : |rsiBias s| ≤ 0.2 := by
    simp only [rsiBias]
    split_ifs with ha hb
    · have hx : (0 : ℚ) ≤ (s.rsi - 55) / 100 := by
        apply div_nonneg _ (by norm_num); linarith
      rw [abs_of_nonneg (le_min (by norm_num) hx)]
      exact min_le_left _ _
    · have hy : (0 : ℚ) ≤ (45 - s.rsi) / 100 := by
        apply div_nonneg _ (by norm_num); linarith
      rw [abs_neg, abs_of_nonneg (le_min (by norm_num) hy)]
      exact min_le_left _ _
    · rw [abs_zero]; norm_num
  have h4 : |momentumBias s| ≤ 0.15 := by
    simp only [momentumBias]
    split_ifs <;> (rw [abs_le]; constructor <;> norm_num)
  have h5 : |change24hBias s| ≤ 0.1 := by
    simp only [change24hBias]
    split_ifs <;> (rw [abs_le]; constructor <;> norm_num)
  have hsum : signalScore s
      = trendBias s + maCrossBias s + rsiBias s + momentumBias s
        + change24hBias s := scoreParts_fst s
  have A1 := abs_add (trendBias s + maCrossBias s + rsiBias s + momentumBias s)
    (change24hBias s)
  have A2 := abs_add (trendBias s + maCrossBias s + rsiBias s) (momentumBias s)
  have A3 := abs_add (trendBias s + maCrossBias s) (rsiBias s)
  have A4 := abs_add (trendBias s) (maCrossBias s)
  rw [hsum]
  linarith

/-- The neutral-tiebreak arm of `combine_signals`: a Neutral primary with
a guardrail of confidence at least 0.55 follows the guardrail. -/
theorem combine_neutral_guardrail (x : Sig) (c : ℚ) (hc : 0.55 ≤ c) :
    combine_signals "Neutral" (some (Sig.toStr x)) (some c) = x := by
  have eN : normalizeSignal (some "Neutral") = .Neutral := by decide
  cases x
  case Bullish =>
    have e : normalizeSignal (some "Bullish") = .Bullish := by decide
    simp only [combine_signals, Sig.toStr, e, eN, List.cons_ne_nil, if_false,
      ite_false]
    simp [hc]
  case Bearish =>
    have e : normalizeSignal (some "Bearish") = .Bearish := by decide
    simp only [combine_signals, Sig.toStr, e, eN, List.cons_ne_nil, if_false,
      ite_false]
    simp [hc]
  case Neutral =>
    simp only [combine_signals, Sig.toStr, eN, List.cons_ne_nil, if_false,
      ite_false]
    simp

/-- C9 — Confidence bounds: the score is bounded by `0.9` in absolute
value, the `0.45` lower clamp is never active (the confidence is exactly
`min(0.95, 0.55 + |score|)`), the confidence always lies in
`[0.55, 0.95]`, and therefore a Neutral primary signal fused with any
guardrail produced by this scorer always follows the guardrail's
signal (the `0.55` neutral-tiebreak threshold is always met). -/
theorem confidence_range (s : MarketSnapshot) :
    |signalScore s| ≤ 0.9 ∧
    (derive_signal s).confidence = min 0.95 (0.55 + |signalScore s|) ∧
    0.55 ≤ (derive_signal s).confidence ∧
    (derive_signal s).confidence ≤ 0.95 ∧
    combine_signals "Neutral" (some (Sig.toStr (derive_signal s).signal))
      (some (derive_signal s).confidence) = (derive_signal s).signal := by
  have hb := abs_signalScore_le s
  have habs : (0 : ℚ) ≤ |signalScore s| := abs_nonneg _
  have hmin : (0.55 : ℚ) ≤ min 0.95 (0.55 + |signalScore s|) :=
    le_min (by norm_num) (by linarith)
  have hconf : (derive_signal s).confidence
      = min 0.95 (0.55 + |signalScore s|) := by
    simp only [derive_signal]
    exact max_eq_right (by linarith)
  refine ⟨hb, hconf, ?_, ?_, ?_⟩
  · rw [hconf]; exact hmin
  · rw [hconf]; exact min_le_left _ _
  · exact combine_neutral_guardrail _ _ (by rw [hconf]; exact hmin)

/-- A concrete snapshot on which all five scoring terms of
`derive_signal` contribute a nonzero amount to the score. -/
def fullContribSnapshot : MarketSnapshot :=
  { symbol := "BTCUSDT", interval := "15m", latest_close := 110,
    change_24h := 0.01, change_4h := 0, momentum_1h := 0.01, rsi := 70,
    sma_fast := 105, sma_slow := 100, atr_pct := 0, volume_24h := 0,
    volatility_24h := 0 }

/-- C6 counterexample — on `fullContribSnapshot` all five scoring terms
contribute to the score (in particular the 24h-change term contributes
`+0.1`), yet the rationale has only four parts: the 24h-change term
never contributes a rationale part. -/
theorem rationale_parts_counterexample :
    contributingTermCount fullContribSnapshot = 5 ∧
    change24hBias fullContribSnapshot = 0.1 ∧
    (derive_signal fullContribSnapshot).rationaleParts.length = 4 := by
  refine ⟨?_, ?_, ?_⟩
  · simp only [contributingTermCount, fullContribSnapshot]
    norm_num
  · simp only [change24hBias, fullContribSnapshot]
    norm_num
  · have h : (derive_signal fullContribSnapshot).rationaleParts
        = (scoreParts fullContribSnapshot).2 := by
      simp only [derive_signal]
    rw [h, scoreParts_snd]
    simp only [fullContribSnapshot]
    norm_num

/-- C6 amended — the score is the sum of all five term biases, but the
rationale is the ordered concatenation of the reasons of only the first
four terms (long-trend bias and MA-cross bias always, RSI bias and
1h-momentum bias on their branch conditions, in that fixed order): the
24h-change term contributes to the score without a rationale part. -/
theorem rationale_order (s : MarketSnapshot) :
    signalScore s
      = trendBias s + maCrossBias s + rsiBias s + momentumBias s
        + change24hBias s ∧
    (derive_signal s).rationaleParts
      = [RationalePart.priceVsLongSMA (0 < trendBias s) s.latest_close s.sma_slow,
         RationalePart.smaCross (0 < maCrossBias s)]
        ++ (if 55 ≤ s.rsi then [RationalePart.rsiStrong s.rsi]
            else if s.rsi ≤ 45 then [RationalePart.rsiWeak s.rsi] else [])
        ++ (if 0.002 ≤ s.momentum_1h then
              [RationalePart.momentum true s.momentum_1h]
            else if s.momentum_1h ≤ -0.002 then
              [RationalePart.momentum false s.momentum_1h]
            else []) := by
  refine ⟨scoreParts_fst s, ?_⟩
  have h : (derive_signal s).rationaleParts = (scoreParts s).2 := by
    simp only [derive_signal]
  rw [h]
  exact scoreParts_snd s

/-- C5 — Indicator fallbacks: on any non-empty candle series shorter
than the indicator's required window, RSI(14) returns `50` (15 bars
required: one lost to `diff`, 14 to the rolling mean), SMA(20)/SMA(60)
return the latest close, ATR% returns `0` (14 bars required), and the
24h volatility returns `0` (window + 1 bars required: one lost to
`pct_change`).  Each value is a total rational — the `Option`-embedded
`NaN` is always replaced by the documented fallback, never surfaced. -/
theorem indicator_fallbacks (closes highs lows : List ℚ) (w : ℕ)
    (hne : closes ≠ []) (hh : highs.length = closes.length) :
    (closes.length < 15 → calcRsi closes = 50) ∧
    (closes.length < 20 → smaLast 20 closes = lastD closes) ∧
    (closes.length < 60 → smaLast 60 closes = lastD closes) ∧
    (closes.length < 14 → atrPctOf highs lows closes = 0) ∧
    (closes.length < w + 1 → volatility24hOf w closes = 0) := by
  have hlen : 0 < closes.length := List.length_pos.mpr hne
  have sma : ∀ w' : ℕ, closes.length < w' → smaLast w' closes = lastD closes := by
    intro w' hw
    unfold smaLast
    rw [rollingMeanO_last_none_short (by simpa using hlen) (by simpa using hw)]
    rfl
  refine ⟨?_, sma 20, sma 60, ?_, ?_⟩
  · intro h15
    simp only [calcRsi]
    have hglen : ((diffO closes).map (Option.map fun d => max d 0)).length
        = closes.length := by
      simp [diffO]
    have hghead : ((diffO closes).map (Option.map fun d => max d 0))[0]?
        = some none := by
      rw [List.getElem?_map]
      unfold diffO
      rw [List.getElem?_map, List.getElem?_range hlen]
      rfl
    have hg := @rollingMeanO_getD_last_none 14
      ((diffO closes).map (Option.map fun d => max d 0))
      (by rw [hglen]; exact hlen) (by rw [hglen]; omega) hghead
    rw [hglen] at hg
    rw [List.map_map]
    unfold lastValO
    rw [rangeMap_getLast? _ hlen]
    simp only [Function.comp, hg]
    rfl
  · intro h14
    have hAtr : calcAtr highs lows closes = 0 := by
      simp only [calcAtr]
      rw [rollingMeanO_last_none_short (by simp [hh, hlen]) (by simp [hh]; omega)]
      rfl
    simp only [atrPctOf]
    rw [hAtr]
    by_cases h0 : lastD closes = 0
    · rw [if_pos h0]
    · rw [if_neg h0]; simp
  · intro hwlt
    unfold volatility24hOf
    rw [@rollingStdO_last_none w (pctChangeO closes)
      (by simp [pctChangeO, hlen]) (by simp [pctChangeO]; omega) ?_]
    · rfl
    · unfold pctChangeO
      rw [List.getElem?_map, List.getElem?_range hlen]
      rfl

/-- C5 witness: every fallback discharged on the three-candle series
`closes = [1,2,3]`, `highs = [2,3,4]`, `lows = [0,1,2]` with the
24h-volatility window of the configured 15-minute interval (96 bars). -/
theorem indicator_fallbacks_witness :
    calcRsi [1, 2, 3] = 50 ∧
    smaLast 20 [1, 2, 3] = lastD [1, 2, 3] ∧
    smaLast 60 [1, 2, 3] = lastD [1, 2, 3] ∧
    atrPctOf [2, 3, 4] [0, 1, 2] [1, 2, 3] = 0 ∧
    volatility24hOf 96 [1, 2, 3] = 0 := by
  have h := indicator_fallbacks [1, 2, 3] [2, 3, 4] [0, 1, 2] 96
    (by decide) (by decide)
  exact ⟨h.1 (by decide), h.2.1 (by decide), h.2.2.1 (by decide),
    h.2.2.2.1 (by decide), h.2.2.2.2 (by decide)⟩

end AIBetterTTrade
